import Mathlib

/-!
# Verification of `mac2switchport.py`

A shallow embedding of the AKIPS switch-port-mapper client
(`src/mac2switchport.py`) and proofs about its behavior.

Modelling conventions:

* Python strings are Lean `String`s (lists of unicode scalar values); the
  character-class primitives (`str.lower`, `str.isalnum`, `str.split`)
  are embedded through Lean's `Char.toLower`, `Char.isAlphanum` and
  `Char.isWhitespace`, which agree with Python on the ASCII repertoire the
  script manipulates (MAC addresses, CSV fields, URLs).
* A raised Python exception is an `Except.error` carrying a `PyExc` tag.
* The two external collaborators — the HTTP API reached through
  `requests.get` and the JSON parser `json.loads` — are parameters of the
  embedded functions (`api : String → String` maps a request URL to the
  response body text; `loads : String → Except PyExc PyVal` maps a line of
  standard input to a parsed JSON value or a raised exception).
* Writing to standard output can raise `BrokenPipeError`; the outcome of
  the n-th `print` call of the process is given by a parameter
  `printExc : Nat → Option PyExc` (`none` = the print succeeded).
-/

namespace Mac2Switchport

/-- Python exceptions that the script can raise or catch.
`assertionError` is what the failed `assert` statements of `format_mac`
raise; the specification calls this failure `InvalidMacFormat`. -/
inductive PyExc
  | assertionError
  | jsonDecodeError
  | brokenPipe
  | keyError
  | typeError
  deriving DecidableEq, Repr

instance {ε α : Type} [DecidableEq ε] [DecidableEq α] : DecidableEq (Except ε α) := fun x y =>
  match x, y with
  | .ok u, .ok v =>
    if h : u = v then .isTrue (by rw [h]) else .isFalse (by simp [h])
  | .error u, .error v =>
    if h : u = v then .isTrue (by rw [h]) else .isFalse (by simp [h])
  | .ok _, .error _ => .isFalse (by simp)
  | .error _, .ok _ => .isFalse (by simp)

/-- Python's `s.split(sep)` for a one-character separator, on the exploded
character list; `acc` is the reversed current field. `"".split(sep) == [""]`
and a trailing separator yields a trailing empty field, as in Python. -/
def pySplitChars (sep : Char) : List Char → List Char → List String
  | [], acc => [String.mk acc.reverse]
  | c :: cs, acc =>
    if c = sep then String.mk acc.reverse :: pySplitChars sep cs []
    else pySplitChars sep cs (c :: acc)

/-- Python's `s.split(sep)` for a one-character separator. -/
def pySplit (s : String) (sep : Char) : List String :=
  pySplitChars sep s.data []

/-- Line 108-109 of `format_mac`:
`re.sub('[.:-]', '', mac).lower()` followed by `''.join(mac.split())`
(delete `.`/`:`/`-`, lowercase, then delete whitespace), on a character
list. -/
def stripChars (cs : List Char) : List Char :=
  ((cs.filter (fun c => !(c == '.' || c == ':' || c == '-'))).map Char.toLower).filter
    (fun c => !c.isWhitespace)

/-- The stripped-and-lowercased form of a MAC input string. -/
def stripMacChars (s : String) : List Char :=
  stripChars s.data

/-- The input with `.`, `:`, `-` and whitespace deleted (no lowercasing);
the "stripped form" the specification's validity conditions speak about. -/
def strippedMac (s : String) : List Char :=
  (s.data.filter (fun c => !(c == '.' || c == ':' || c == '-'))).filter
    (fun c => !c.isWhitespace)

/-- A hexadecimal digit: `0-9`, `a-f` or `A-F`. -/
def isHexChar (c : Char) : Bool :=
  c.isDigit || (decide (97 ≤ c.toNat) && decide (c.toNat ≤ 102)) ||
    (decide (65 ≤ c.toNat) && decide (c.toNat ≤ 70))

/-- The chunks `mac[i:i+2]` for `i in range(0, len, 2)`. -/
def pairChunks : List Char → List (List Char)
  | [] => []
  | [c] => [[c]]
  | a :: b :: rest => [a, b] :: pairChunks rest

/-- Python's `":".join(chunks)` on character lists. -/
def joinColon : List (List Char) → List Char
  | [] => []
  | [p] => p
  | p :: ps => p ++ ':' :: joinColon ps

/-- `format_mac` (lines 107-114): strip delimiters and whitespace,
lowercase, `assert` length 12 and alphanumeric-only, then re-insert a colon
every two characters.  A failed `assert` raises `AssertionError`. -/
def format_mac (mac : String) : Except PyExc String :=
  let m := stripMacChars mac
  if m.length = 12 then
    if m.all Char.isAlphanum then
      .ok (String.mk (joinColon (pairChunks m)))
    else
      .error .assertionError
  else
    .error .assertionError

/-- One row of the parsed CSV response (the dict built on line 129). -/
structure PortRecord where
  mac : String
  vendor : String
  switch : String
  port : String
  vlan : String
  ipaddress : String
  deriving DecidableEq, Repr

/-- The environment-provided configuration (`AKIPS_URL`,
`AKIPS_API_RO_PASSWORD`), loaded once at startup. -/
structure Config where
  akips_url : String
  akips_api_ro_password : String
  deriving DecidableEq, Repr

/-- The request URL built on line 120:
`AKIPS_URL + "/api-spm?username=api-ro;password=" + AKIPS_API_RO_PASSWORD + ";mac=" + format_mac(mac)`. -/
def spmUrl (cfg : Config) (fm : String) : String :=
  cfg.akips_url ++ "/api-spm?username=api-ro;password=" ++
    cfg.akips_api_ro_password ++ ";mac=" ++ fm

/-- What `mac2switchport` returns: a bare record when exactly one row
parsed, the (possibly empty) list otherwise, or the raw response text in
raw mode. -/
inductive ResolveResult
  | single (r : PortRecord)
  | multiple (rs : List PortRecord)
  | raw (text : String)
  deriving DecidableEq, Repr

/-- Loop body of lines 126-129: split the line on `,`; a line with exactly
6 fields contributes a record whose `mac` field is re-normalized by
`format_mac` (which may raise); any other line contributes nothing. -/
def parseLine (line : String) : Except PyExc (Option PortRecord) :=
  match pySplit line ',' with
  | [m, v, sw, p, vl, ip] =>
    match format_mac m with
    | .ok fm => .ok (some { mac := fm, vendor := v, switch := sw, port := p, vlan := vl, ipaddress := ip })
    | .error e => .error e
  | _ => .ok none

/-- Lines 125-129: fold `parseLine` over the response lines, collecting
the records in order; a raised exception aborts the whole loop. -/
def parseCsvLines : List String → Except PyExc (List PortRecord)
  | [] => .ok []
  | l :: ls => do
    let r ← parseLine l
    let rest ← parseCsvLines ls
    pure (match r with
      | some pr => pr :: rest
      | none => rest)

/-- `mac2switchport` (lines 117-130).  Returns the list of URLs requested
(empty or a singleton) together with the result or raised exception.
`api` stands for the remote AKIPS server: it maps a request URL to the
response body `r.text`. -/
def mac2switchport (cfg : Config) (api : String → String) (mac : String)
    (raw : Bool) : List String × Except PyExc ResolveResult :=
  match format_mac mac with
  | .error e => ([], .error e)
  | .ok fm =>
    let url := spmUrl cfg fm
    let body := api url
    if raw then
      ([url], .ok (.raw body))
    else
      match parseCsvLines (pySplit body '\n') with
      | .error e => ([url], .error e)
      | .ok [r] => ([url], .ok (.single r))
      | .ok rs => ([url], .ok (.multiple rs))

/-- Written from the specification's description of non-raw resolution,
for comparison with the code: "split response body into lines; split each
line on `,`; a line yields a `PortRecord` only if it has exactly 6
comma-separated fields (mac, vendor, switch, port, vlan, ipaddress); the
mac field of each resulting record is itself re-normalized" — i.e. keep
the 6-field lines, in order, and build a record from each. -/
def spec_lineRecord (l : String) : Except PyExc PortRecord :=
  let f := pySplit l ','
  (format_mac (f.getD 0 "")).map (fun fm =>
    { mac := fm, vendor := f.getD 1 "", switch := f.getD 2 "",
      port := f.getD 3 "", vlan := f.getD 4 "", ipaddress := f.getD 5 "" })

/-- Written from the specification's description of non-raw resolution:
records of the 6-field lines in order of appearance; exactly one record is
returned unwrapped, zero or several are returned as the sequence. -/
def spec_resolve (body : String) : Except PyExc ResolveResult := do
  let rs ← ((pySplit body '\n').filter
    (fun l => (pySplit l ',').length = 6)).mapM spec_lineRecord
  pure (match rs with
    | [r] => .single r
    | _ => .multiple rs)

/-- A Python value as produced by `json.loads` (restricted to what the
script inspects). -/
inductive PyVal
  | str (s : String)
  | num (n : Int)
  | bool (b : Bool)
  | null
  | list (xs : List PyVal)
  | dict (entries : List (String × PyVal))

/-- Python `for x in v`: a string yields its one-character substrings, a
list its elements, a dict its keys; other values raise `TypeError`. -/
def pyIter : PyVal → Except PyExc (List PyVal)
  | .str s => .ok (s.data.map (fun c => .str (String.mk [c])))
  | .list xs => .ok xs
  | .dict es => .ok (es.map (fun e => .str e.1))
  | _ => .error .typeError

/-- Lookup in a Python dict (first binding of the key). -/
def pyLookup (es : List (String × PyVal)) (k : String) : Option PyVal :=
  (es.find? (fun e => e.1 == k)).map (fun e => e.2)

/-- Python `v['mac']`: dict lookup (raising `KeyError` when absent);
subscripting a non-dict by a string raises `TypeError`. -/
def pySubscript (v : PyVal) (k : String) : Except PyExc PyVal :=
  match v with
  | .dict es =>
    match pyLookup es k with
    | some x => .ok x
    | none => .error .keyError
  | _ => .error .typeError

/-- Calling `mac2switchport(mac, False)` on a value taken from parsed
JSON: a non-string argument makes `re.sub` raise `TypeError`. -/
def mac2switchportVal (cfg : Config) (api : String → String) (v : PyVal) :
    Except PyExc ResolveResult :=
  match v with
  | .str s => (mac2switchport cfg api s false).2
  | _ => .error .typeError

/-- Lines 145-147: `for mac in json_in['mac']: retval.append(mac2switchport(mac, False))`. -/
def resolveAll (cfg : Config) (api : String → String) :
    List PyVal → Except PyExc (List ResolveResult)
  | [] => .ok []
  | v :: vs => do
    let r ← mac2switchportVal cfg api v
    let rs ← resolveAll cfg api vs
    pure (r :: rs)

/-- Lines 151-153: `for ele in json_in: retval.append(mac2switchport(ele['mac'], False))`. -/
def resolveListPath (cfg : Config) (api : String → String) :
    List PyVal → Except PyExc (List ResolveResult)
  | [] => .ok []
  | ele :: rest => do
    let mv ← pySubscript ele "mac"
    let r ← mac2switchportVal cfg api mv
    let rs ← resolveListPath cfg api rest
    pure (r :: rs)

/-- One unit of standard-output text in stream mode: a JSON array printed
by the JSON object/array paths, or a single JSON value printed by the
bare-line fallback path. -/
inductive OutItem
  | batch (rs : List ResolveResult)
  | single (r : ResolveResult)
  deriving DecidableEq, Repr

/-- The loop of lines 139-155 (the body of the outer `try`): per non-empty
line, `json.loads` it; a dict is the batch path over `json_in['mac']`, a
list the per-element path; other JSON values are skipped.  Returns the
print counter, the pieces printed so far, and the exception that escaped
the loop, if any. -/
def runJsonLines (cfg : Config) (api : String → String)
    (loads : String → Except PyExc PyVal) (printExc : Nat → Option PyExc) :
    List String → Nat → List OutItem → Nat × List OutItem × Option PyExc
  | [], n, out => (n, out, none)
  | line :: rest, n, out =>
    if line.length = 0 then runJsonLines cfg api loads printExc rest n out
    else
      match loads line with
      | .error e => (n, out, some e)
      | .ok (.dict es) =>
        match pyLookup es "mac" with
        | none => (n, out, some .keyError)
        | some mv =>
          match pyIter mv with
          | .error e => (n, out, some e)
          | .ok macs =>
            match resolveAll cfg api macs with
            | .error e => (n, out, some e)
            | .ok rs =>
              match printExc n with
              | some e => (n + 1, out, some e)
              | none => runJsonLines cfg api loads printExc rest (n + 1) (out ++ [.batch rs])
      | .ok (.list xs) =>
        match resolveListPath cfg api xs with
        | .error e => (n, out, some e)
        | .ok rs =>
          match printExc n with
          | some e => (n + 1, out, some e)
          | none => runJsonLines cfg api loads printExc rest (n + 1) (out ++ [.batch rs])
      | .ok _ => runJsonLines cfg api loads printExc rest n out

/-- The fallback loop of lines 160-165: every non-empty line is treated as
a bare MAC address, resolved in non-raw mode and printed on its own. -/
def runFallbackLines (cfg : Config) (api : String → String)
    (printExc : Nat → Option PyExc) :
    List String → Nat → List OutItem → Nat × List OutItem × Option PyExc
  | [], n, out => (n, out, none)
  | line :: rest, n, out =>
    if line.length = 0 then runFallbackLines cfg api printExc rest n out
    else
      match (mac2switchport cfg api line false).2 with
      | .error e => (n, out, some e)
      | .ok r =>
        match printExc n with
        | some e => (n + 1, out, some e)
        | none => runFallbackLines cfg api printExc rest (n + 1) (out ++ [.single r])

/-- Stream mode, `main` lines 135-171: run the JSON loop over the lines of
standard input; `json.decoder.JSONDecodeError` falls back to re-reading
every line as a bare MAC (`except json.decoder.JSONDecodeError`), where a
`BrokenPipeError` is swallowed (`except BrokenPipeError: pass`) and any
other exception is re-raised; an exception other than `JSONDecodeError`
escaping the JSON loop is re-raised (`except: raise`).  Returns the
printed output and the exception that terminates the process, if any. -/
def runStream (cfg : Config) (api : String → String)
    (loads : String → Except PyExc PyVal) (printExc : Nat → Option PyExc)
    (stdin : String) : List OutItem × Option PyExc :=
  let ls := pySplit stdin '\n'
  match runJsonLines cfg api loads printExc ls 0 [] with
  | (_, out, none) => (out, none)
  | (n, out, some e) =>
    if e = PyExc.jsonDecodeError then
      match runFallbackLines cfg api printExc ls n out with
      | (_, out2, none) => (out2, none)
      | (_, out2, some e2) =>
        if e2 = PyExc.brokenPipe then (out2, none) else (out2, some e2)
    else (out, some e)

/-- A sample configuration for concrete evaluations. -/
def cfg0 : Config :=
  { akips_url := "https://akips.example.edu", akips_api_ro_password := "s3cret" }

/-- A server that cannot resolve any MAC: it answers every request with
the AKIPS error line. -/
def apiErr : String → String :=
  fun _ => "Can't resolve mac address aa:bb:cc:dd:ee:ff\n"

/-- A server that answers every request with one CSV row. -/
def apiOne : String → String :=
  fun _ => "aa:bb:cc:dd:ee:ff,Acme,sw1,Gi0/1,vlan10,10.0.0.5\n"

/-- A server that answers every request with two CSV rows. -/
def apiTwo : String → String :=
  fun _ =>
    "aa:bb:cc:dd:ee:ff,Acme,sw1,Gi0/1,vlan10,10.0.0.5\n11:22:33:44:55:66,Bmce,sw2,Gi0/2,vlan20,10.0.0.6\n"

/-- A server whose second CSV row carries a malformed mac field. -/
def apiBadRow : String → String :=
  fun _ =>
    "aa:bb:cc:dd:ee:ff,Acme,sw1,Gi0/1,vlan10,10.0.0.5\nbadmac,v,s,p,vl,ip\n"

/-- A `json.loads` that raises `JSONDecodeError` on every line (the input
is not JSON). -/
def loadsFail : String → Except PyExc PyVal :=
  fun _ => .error .jsonDecodeError

/-- A `json.loads` that parses every line as `{"mac": ["aabbccddeeff"]}`. -/
def loadsBatch : String → Except PyExc PyVal :=
  fun _ => .ok (.dict [("mac", .list [.str "aabbccddeeff"])])

/-- A standard output whose consumer has closed the pipe: every `print`
raises `BrokenPipeError`. -/
def printBroken : Nat → Option PyExc :=
  fun _ => some .brokenPipe

/-- A standard output on which every `print` succeeds. -/
def printOk : Nat → Option PyExc :=
  fun _ => none

/-! ## Character-level facts about the Lean primitives used in the embedding -/

theorem toNat_ofNatAux (n : Nat) (h : n.isValidChar) : (Char.ofNatAux n h).toNat = n := rfl

theorem toLower_toNat_of_upper (c : Char) (h : 65 ≤ c.toNat ∧ c.toNat ≤ 90) :
    (Char.toLower c).toNat = c.toNat + 32 := by
  have hv : (c.toNat + 32).isValidChar := Or.inl (by omega)
  simp only [Char.toLower, ge_iff_le]
  rw [if_pos ⟨h.1, h.2⟩, Char.ofNat, dif_pos hv]
  exact toNat_ofNatAux _ hv

theorem toLower_of_not_upper (c : Char) (h : ¬(65 ≤ c.toNat ∧ c.toNat ≤ 90)) :
    Char.toLower c = c := by
  simp only [Char.toLower, ge_iff_le]
  rw [if_neg h]

theorem isAlphanum_iff (c : Char) : c.isAlphanum = true ↔
    (48 ≤ c.toNat ∧ c.toNat ≤ 57) ∨ (65 ≤ c.toNat ∧ c.toNat ≤ 90) ∨
    (97 ≤ c.toNat ∧ c.toNat ≤ 122) := by
  simp [Char.isAlphanum, Char.isAlpha, Char.isUpper, Char.isLower, Char.isDigit,
    Char.toNat, UInt32.le_def, BitVec.le_def, UInt32.toNat]
  omega

theorem isHexChar_iff (c : Char) : isHexChar c = true ↔
    (48 ≤ c.toNat ∧ c.toNat ≤ 57) ∨ (97 ≤ c.toNat ∧ c.toNat ≤ 102) ∨
    (65 ≤ c.toNat ∧ c.toNat ≤ 70) := by
  simp [isHexChar, Char.isDigit, Char.toNat, UInt32.le_def, BitVec.le_def, UInt32.toNat]
  omega

theorem isAlphanum_of_isHexChar (c : Char) (h : isHexChar c = true) :
    c.isAlphanum = true := by
  rw [isHexChar_iff] at h
  rw [isAlphanum_iff]
  omega

theorem alnum_not_ws (c : Char) (h : c.isAlphanum = true) : c.isWhitespace = false := by
  cases hw : c.isWhitespace with
  | false => rfl
  | true =>
    simp only [Char.isWhitespace, Bool.or_eq_true, decide_eq_true_eq] at hw
    rcases hw with ((rfl | rfl) | rfl) | rfl <;> exact absurd h (by decide)

theorem alnum_ne_dot (c : Char) (h : c.isAlphanum = true) : c ≠ '.' :=
  fun e => absurd (e ▸ h) (by decide)

theorem alnum_ne_colon (c : Char) (h : c.isAlphanum = true) : c ≠ ':' :=
  fun e => absurd (e ▸ h) (by decide)

theorem alnum_ne_dash (c : Char) (h : c.isAlphanum = true) : c ≠ '-' :=
  fun e => absurd (e ▸ h) (by decide)

theorem toLower_toLower (c : Char) : (Char.toLower c).toLower = Char.toLower c := by
  by_cases h : 65 ≤ c.toNat ∧ c.toNat ≤ 90
  · have h2 := toLower_toNat_of_upper c h
    apply toLower_of_not_upper
    omega
  · rw [toLower_of_not_upper c h, toLower_of_not_upper c h]

theorem isAlphanum_toLower (c : Char) : (Char.toLower c).isAlphanum = c.isAlphanum := by
  by_cases h : 65 ≤ c.toNat ∧ c.toNat ≤ 90
  · have h2 := toLower_toNat_of_upper c h
    rw [Bool.eq_iff_iff, isAlphanum_iff, isAlphanum_iff]
    omega
  · rw [toLower_of_not_upper c h]

theorem isWhitespace_toLower (c : Char) : (Char.toLower c).isWhitespace = c.isWhitespace := by
  by_cases h : 65 ≤ c.toNat ∧ c.toNat ≤ 90
  · have h2 := toLower_toNat_of_upper c h
    have hna : (Char.toLower c).isAlphanum = true := by
      rw [isAlphanum_iff]; omega
    have hca : c.isAlphanum = true := by
      rw [isAlphanum_iff]; omega
    rw [alnum_not_ws _ hna, alnum_not_ws _ hca]
  · rw [toLower_of_not_upper c h]

/-- A character that is both a hex digit and fixed by `toLower` is a digit
or a lowercase letter. -/
theorem hex_lower_fixed (c : Char) (hh : isHexChar c = true) (hl : Char.toLower c = c) :
    c.isLower = true ∨ c.isDigit = true := by
  rw [isHexChar_iff] at hh
  have hlow : ¬(65 ≤ c.toNat ∧ c.toNat ≤ 90) := by
    intro hu
    have := toLower_toNat_of_upper c hu
    rw [hl] at this
    omega
  have : (48 ≤ c.toNat ∧ c.toNat ≤ 57) ∨ (97 ≤ c.toNat ∧ c.toNat ≤ 102) := by omega
  rcases this with h | h
  · right
    simp [Char.isDigit, Char.toNat, UInt32.le_def, BitVec.le_def, UInt32.toNat] at h ⊢
    omega
  · left
    simp [Char.isLower, Char.toNat, UInt32.le_def, BitVec.le_def, UInt32.toNat] at h ⊢
    omega

/-! ## Facts about the stripping and re-delimiting pipeline -/

theorem stripChars_cons_of_nice (c : Char) (cs : List Char)
    (ha : c.isAlphanum = true) (hl : Char.toLower c = c) :
    stripChars (c :: cs) = c :: stripChars cs := by
  simp [stripChars, List.filter_cons, alnum_ne_dot c ha, alnum_ne_colon c ha,
    alnum_ne_dash c ha, hl, alnum_not_ws c ha]

theorem stripChars_cons_colon (cs : List Char) :
    stripChars (':' :: cs) = stripChars cs := by
  simp [stripChars, List.filter_cons]

theorem pairChunks_ne_nil (l : List Char) (h : l ≠ []) : pairChunks l ≠ [] := by
  rcases l with _ | ⟨a, _ | ⟨b, r⟩⟩ <;> simp_all [pairChunks]

theorem joinColon_cons_of_ne (p : List Char) (ps : List (List Char)) (h : ps ≠ []) :
    joinColon (p :: ps) = p ++ ':' :: joinColon ps := by
  cases ps with
  | nil => exact absurd rfl h
  | cons q qs => rfl

/-- Stripping undoes the colon re-insertion: on a list of alphanumeric,
`toLower`-fixed characters, `stripChars` of the colon-joined pair chunks
gives back the original list. -/
theorem stripChars_joinColon_pairChunks (m : List Char)
    (h : ∀ c ∈ m, c.isAlphanum = true ∧ Char.toLower c = c) :
    stripChars (joinColon (pairChunks m)) = m := by
  induction m using pairChunks.induct with
  | case1 => rfl
  | case2 c =>
    have hc := h c (by simp)
    show stripChars [c] = [c]
    rw [stripChars_cons_of_nice c [] hc.1 hc.2]
    rfl
  | case3 a b rest ih =>
    have ha := h a (by simp)
    have hb := h b (by simp)
    cases rest with
    | nil =>
      show stripChars [a, b] = [a, b]
      rw [stripChars_cons_of_nice a [b] ha.1 ha.2, stripChars_cons_of_nice b [] hb.1 hb.2]
      rfl
    | cons r rs =>
      have hne : pairChunks (r :: rs) ≠ [] := pairChunks_ne_nil _ (by simp)
      have hrec := ih (fun c hc => h c (by simp [hc]))
      show stripChars (joinColon ([a, b] :: pairChunks (r :: rs))) = a :: b :: r :: rs
      rw [joinColon_cons_of_ne _ _ hne]
      show stripChars (a :: b :: ':' :: joinColon (pairChunks (r :: rs))) = a :: b :: r :: rs
      rw [stripChars_cons_of_nice a _ ha.1 ha.2, stripChars_cons_of_nice b _ hb.1 hb.2,
        stripChars_cons_colon, hrec]

theorem mem_stripChars_lower_fixed (cs : List Char) (c : Char) (h : c ∈ stripChars cs) :
    Char.toLower c = c := by
  simp only [stripChars, List.mem_filter, List.mem_map] at h
  obtain ⟨⟨x, _, rfl⟩, _⟩ := h
  exact toLower_toLower x

/-- The stripped-and-lowercased form is the lowercasing of the stripped
form: deleting whitespace commutes with `toLower`. -/
theorem stripMacChars_eq_map (s : String) :
    stripMacChars s = (strippedMac s).map Char.toLower := by
  show ((s.data.filter _).map Char.toLower).filter _ = _
  rw [List.filter_map]
  have : ((fun c => !c.isWhitespace) ∘ Char.toLower) = (fun c => !c.isWhitespace) := by
    funext c
    simp [isWhitespace_toLower]
  rw [this]
  rfl

theorem stripMacChars_length (s : String) :
    (stripMacChars s).length = (strippedMac s).length := by
  rw [stripMacChars_eq_map]
  exact List.length_map _ _

theorem stripMacChars_all_alnum (s : String) :
    (stripMacChars s).all Char.isAlphanum = (strippedMac s).all Char.isAlphanum := by
  rw [stripMacChars_eq_map, List.all_map]
  congr 1
  funext c
  exact isAlphanum_toLower c

/-- The `assert` conditions of `format_mac`, phrased on the stripped (not
yet lowercased) input: lowercasing changes neither the length nor
alphanumericity, so `format_mac` fails exactly when the stripped form is
not 12 alphanumeric characters. -/
theorem format_mac_error_iff_aux (s : String) :
    format_mac s = .error .assertionError ↔
      ¬((strippedMac s).length = 12 ∧ ∀ c ∈ strippedMac s, c.isAlphanum = true) := by
  have hlen := stripMacChars_length s
  have hall : (stripMacChars s).all Char.isAlphanum = true ↔
      ∀ c ∈ strippedMac s, c.isAlphanum = true := by
    rw [stripMacChars_all_alnum]
    exact List.all_eq_true
  by_cases h1 : (stripMacChars s).length = 12
  · by_cases h2 : (stripMacChars s).all Char.isAlphanum = true
    · simp only [format_mac, h1, h2, if_true]
      constructor
      · intro h
        exact absurd h (by simp)
      · intro h
        exact absurd ⟨by omega, hall.mp h2⟩ h
    · simp only [format_mac, h1, if_true]
      rw [if_neg (by simpa using h2)]
      constructor
      · intro _
        intro hc
        exact h2 (hall.mpr hc.2)
      · intro _
        rfl
  · simp only [format_mac]
    rw [if_neg h1]
    constructor
    · intro _
      intro hc
      exact h1 (by omega)
    · intro _
      rfl

/-- C5: `format_mac` fails — with the `AssertionError` that the
specification calls `InvalidMacFormat` — if and only if the input, after
stripping `.`, `:`, `-` and whitespace, is not exactly 12 characters long
or contains a non-alphanumeric character; in particular the
10-hex-character input `"aa:bb:cc:dd:ee"` is rejected. -/
theorem format_mac_invalid_iff :
    (∀ s : String, format_mac s = .error .assertionError ↔
      ¬((strippedMac s).length = 12 ∧ ∀ c ∈ strippedMac s, c.isAlphanum = true)) ∧
    format_mac "aa:bb:cc:dd:ee" = .error .assertionError :=
  ⟨format_mac_error_iff_aux, by decide⟩

/-- C3, counterexample: the stripped form of `"gggggggggggg"` consists of
12 non-hex alphanumeric characters, so under the claim normalization would
have to fail; but `format_mac` accepts it and returns
`"gg:gg:gg:gg:gg:gg"` — the code checks `isalnum`, not hex. -/
theorem format_mac_accepts_nonhex :
    (∃ c ∈ strippedMac "gggggggggggg", isHexChar c = false) ∧
    format_mac "gggggggggggg" = .ok "gg:gg:gg:gg:gg:gg" := by
  constructor
  · exact ⟨'g', by decide, by decide⟩
  · decide

/-- C3 (amended): for every input string whose stripped form has the wrong
length or contains a non-ALPHANUMERIC character, normalization is a hard
error, not a silent pass-through (12-character alphanumeric strings with
letters `g`-`z` are, however, accepted). -/
theorem format_mac_error_of_invalid (s : String)
    (h : (strippedMac s).length ≠ 12 ∨ ∃ c ∈ strippedMac s, c.isAlphanum = false) :
    format_mac s = .error .assertionError := by
  rw [format_mac_error_iff_aux]
  rintro ⟨hl, hc⟩
  rcases h with h | ⟨c, hm, hcf⟩
  · exact h hl
  · rw [hc c hm] at hcf
    cases hcf

/-- Witness for the amended C3 at a concrete input: a 10-character strip. -/
theorem format_mac_error_of_invalid_witness :
    format_mac "aa:bb:cc:dd:ee" = .error .assertionError :=
  format_mac_error_of_invalid "aa:bb:cc:dd:ee" (Or.inl (by decide))

/-- C6: all representations of a valid 12-hex-digit MAC — any mixture of
`:`, `-`, `.` delimiters or none, surrounding whitespace, upper or lower
case, i.e. any inputs with the same stripped-and-lowercased form — map to
the same canonical string, the colon-joined pair chunks of the 12
lowercase hex characters; e.g. `"1122.3344.5566"` and
`"11-22-33-44-55-66"` both map to `"11:22:33:44:55:66"`. -/
theorem format_mac_canonicalizes :
    (∀ s₁ s₂ : String, stripMacChars s₁ = stripMacChars s₂ →
      (stripMacChars s₁).length = 12 →
      (∀ c ∈ stripMacChars s₁, isHexChar c = true) →
      format_mac s₁ = format_mac s₂ ∧
      format_mac s₁ = .ok (String.mk (joinColon (pairChunks (stripMacChars s₁)))) ∧
      (∀ c ∈ stripMacChars s₁, c.isLower = true ∨ c.isDigit = true)) ∧
    format_mac "1122.3344.5566" = .ok "11:22:33:44:55:66" ∧
    format_mac "11-22-33-44-55-66" = .ok "11:22:33:44:55:66" := by
  refine ⟨?_, by decide, by decide⟩
  intro s₁ s₂ heq hlen hhex
  have hall : (stripMacChars s₁).all Char.isAlphanum = true :=
    List.all_eq_true.mpr (fun c hc => isAlphanum_of_isHexChar c (hhex c hc))
  have h1 : format_mac s₁ = .ok (String.mk (joinColon (pairChunks (stripMacChars s₁)))) := by
    simp only [format_mac, hlen, hall, if_true]
  have h2 : format_mac s₂ = .ok (String.mk (joinColon (pairChunks (stripMacChars s₂)))) := by
    rw [heq] at hlen hall
    simp only [format_mac, hlen, hall, if_true]
  refine ⟨?_, h1, ?_⟩
  · rw [h1, h2, heq]
  · intro c hc
    exact hex_lower_fixed c (hhex c hc) (mem_stripChars_lower_fixed s₁.data c hc)

/-- Witness for C6: an upper-case dotted form and a bare lower-case form
normalize identically. -/
theorem format_mac_canonicalizes_witness :
    format_mac "AABB.CCDD.EEFF" = format_mac "aabbccddeeff" :=
  (format_mac_canonicalizes.1 "AABB.CCDD.EEFF" "aabbccddeeff" (by decide) (by decide)
    (by decide)).1

/-- C7: `format_mac` is idempotent — whenever it succeeds, its output is a
fixed point, so applying normalization twice equals applying it once. -/
theorem format_mac_idempotent (x y : String) (h : format_mac x = .ok y) :
    format_mac y = .ok y := by
  by_cases h1 : (stripMacChars x).length = 12
  · by_cases h2 : (stripMacChars x).all Char.isAlphanum = true
    · simp only [format_mac, h1, h2, if_true, Except.ok.injEq] at h
      have hnice : ∀ c ∈ stripMacChars x, c.isAlphanum = true ∧ Char.toLower c = c :=
        fun c hc => ⟨List.all_eq_true.mp h2 c hc, mem_stripChars_lower_fixed x.data c hc⟩
      have hy : stripMacChars (String.mk (joinColon (pairChunks (stripMacChars x)))) =
          stripMacChars x :=
        stripChars_joinColon_pairChunks (stripMacChars x) hnice
      subst h
      simp only [format_mac, hy, h1, h2, if_true]
    · simp only [format_mac, h1, if_true] at h
      rw [if_neg (by simpa using h2)] at h
      cases h
  · simp only [format_mac] at h
    rw [if_neg h1] at h
    cases h

/-- Witness for C7 at a concrete input. -/
theorem format_mac_idempotent_witness :
    format_mac "aa:bb:cc:dd:ee:ff" = .ok "aa:bb:cc:dd:ee:ff" :=
  format_mac_idempotent "AABBCCDDEEFF" "aa:bb:cc:dd:ee:ff" (by decide)

/-! ## Facts about the response parsing loop -/

theorem list_eq_six (xs : List String) (h : xs.length = 6) :
    ∃ a b c d e f, xs = [a, b, c, d, e, f] := by
  rcases xs with _ | ⟨a, _ | ⟨b, _ | ⟨c, _ | ⟨d, _ | ⟨e, _ | ⟨f, _ | ⟨g, t⟩⟩⟩⟩⟩⟩⟩ <;>
    simp_all

theorem parseLine_six (l m v sw p vl ip : String)
    (hsp : pySplit l ',' = [m, v, sw, p, vl, ip]) :
    parseLine l = (spec_lineRecord l).map some := by
  unfold parseLine spec_lineRecord
  rw [hsp]
  cases hfm : format_mac m <;> simp [hfm, List.getD, Except.map]

theorem parseLine_not6 (l : String) (h : (pySplit l ',').length ≠ 6) :
    parseLine l = .ok none := by
  unfold parseLine
  split
  · rename_i heq
    rw [heq] at h
    exact absurd rfl h
  · rfl

theorem parseCsvLines_eq_spec (ls : List String) :
    parseCsvLines ls =
      (ls.filter (fun l => (pySplit l ',').length = 6)).mapM spec_lineRecord := by
  induction ls with
  | nil => rfl
  | cons l ls ih =>
    by_cases h6 : (pySplit l ',').length = 6
    · obtain ⟨m, v, sw, p, vl, ip, hsp⟩ := list_eq_six _ h6
      rw [List.filter_cons_of_pos (by simpa using h6), List.mapM_cons]
      simp only [parseCsvLines]
      rw [parseLine_six l m v sw p vl ip hsp, ih]
      cases hr : spec_lineRecord l <;>
        cases hrest : (ls.filter (fun l => (pySplit l ',').length = 6)).mapM spec_lineRecord <;>
        simp [Bind.bind, Except.bind, Except.map, Pure.pure, Except.pure]
    · rw [List.filter_cons_of_neg (by simpa using h6)]
      simp only [parseCsvLines]
      rw [parseLine_not6 l h6, ih]
      cases hrest : (ls.filter (fun l => (pySplit l ',').length = 6)).mapM spec_lineRecord <;>
        simp [Bind.bind, Except.bind, Pure.pure, Except.pure]

/-- C1: with normalization succeeding, non-raw resolution equals the
specification's description: split the body into lines, keep exactly the
lines with 6 comma-separated fields in order of appearance, bind the
fields as (mac, vendor, switch, port, vlan, ipaddress) with the mac field
re-normalized, and return a single record unwrapped or the (possibly
empty) sequence otherwise — as captured by `spec_resolve`. -/
theorem resolve_nonraw_eq_spec (cfg : Config) (api : String → String) (mac fm : String)
    (h : format_mac mac = .ok fm) :
    (mac2switchport cfg api mac false).2 = spec_resolve (api (spmUrl cfg fm)) := by
  simp only [mac2switchport, h, Bool.false_eq_true, if_false]
  unfold spec_resolve
  rw [← parseCsvLines_eq_spec]
  cases hp : parseCsvLines (pySplit (api (spmUrl cfg fm)) '\n') with
  | error e => simp [Bind.bind, Except.bind]
  | ok rs =>
    rcases rs with _ | ⟨r, _ | ⟨r2, t⟩⟩ <;> simp [Bind.bind, Except.bind, Pure.pure, Except.pure]

/-- Witness for C1: the code and the specification-side resolver agree on
a two-row response. -/
theorem resolve_nonraw_eq_spec_witness :
    (mac2switchport cfg0 apiTwo "aabbccddeeff" false).2 =
      spec_resolve (apiTwo (spmUrl cfg0 "aa:bb:cc:dd:ee:ff")) :=
  resolve_nonraw_eq_spec cfg0 apiTwo "aabbccddeeff" "aa:bb:cc:dd:ee:ff" (by decide)

/-- C4: `mac2switchport` normalizes the MAC first — if normalization
fails the exception propagates and no request is issued — and otherwise
issues exactly one GET whose URL is
`{AKIPS_URL}/api-spm?username=api-ro;password={secret};mac={normalized}`,
with `;` separating the query parameters. -/
theorem resolve_request_url (cfg : Config) (api : String → String) (mac : String) (raw : Bool) :
    (∀ e, format_mac mac = .error e → mac2switchport cfg api mac raw = ([], .error e)) ∧
    (∀ fm, format_mac mac = .ok fm →
      (mac2switchport cfg api mac raw).1 =
        [cfg.akips_url ++ "/api-spm?username=api-ro;password=" ++
          cfg.akips_api_ro_password ++ ";mac=" ++ fm]) := by
  constructor
  · intro e he
    simp [mac2switchport, he]
  · intro fm hf
    simp only [mac2switchport, hf]
    cases raw with
    | true => rfl
    | false =>
      simp only [Bool.false_eq_true, if_false]
      split <;> rfl

/-- Witness for C4: a failing normalization issues no request; a
successful one issues the semicolon-separated URL. -/
theorem resolve_request_url_witness :
    mac2switchport cfg0 apiOne "zz" false = ([], .error .assertionError) ∧
    (mac2switchport cfg0 apiOne "aabbccddeeff" false).1 =
      [cfg0.akips_url ++ "/api-spm?username=api-ro;password=" ++
        cfg0.akips_api_ro_password ++ ";mac=" ++ "aa:bb:cc:dd:ee:ff"] :=
  ⟨(resolve_request_url cfg0 apiOne "zz" false).1 .assertionError (by decide),
   (resolve_request_url cfg0 apiOne "aabbccddeeff" false).2 "aa:bb:cc:dd:ee:ff" (by decide)⟩

theorem parseCsvLines_no_six (ls : List String)
    (h : ∀ l ∈ ls, (pySplit l ',').length ≠ 6) :
    parseCsvLines ls = .ok [] := by
  induction ls with
  | nil => rfl
  | cons l ls ih =>
    simp only [parseCsvLines]
    rw [parseLine_not6 l (h l (by simp)), ih (fun l hl => h l (by simp [hl]))]
    rfl

/-- C8: when no response line has exactly 6 comma-separated fields — in
particular for the AKIPS error body
`"Can't resolve mac address aa:bb:cc:dd:ee:ff\n"` — non-raw mode returns
the empty sequence and raw mode returns the response body text
unmodified. -/
theorem resolve_unresolvable (cfg : Config) (api : String → String) (mac fm : String)
    (h : format_mac mac = .ok fm)
    (hno : ∀ l ∈ pySplit (api (spmUrl cfg fm)) '\n', (pySplit l ',').length ≠ 6) :
    (mac2switchport cfg api mac false).2 = .ok (.multiple []) ∧
    (mac2switchport cfg api mac true).2 = .ok (.raw (api (spmUrl cfg fm))) := by
  constructor
  · simp only [mac2switchport, h, Bool.false_eq_true, if_false]
    rw [parseCsvLines_no_six _ hno]
  · simp [mac2switchport, h]

/-- Witness for C8 on the concrete error body returned by `apiErr`. -/
theorem resolve_unresolvable_witness :
    (mac2switchport cfg0 apiErr "aabbccddeeff" false).2 = .ok (.multiple []) ∧
    (mac2switchport cfg0 apiErr "aabbccddeeff" true).2 =
      .ok (.raw (apiErr (spmUrl cfg0 "aa:bb:cc:dd:ee:ff"))) :=
  resolve_unresolvable cfg0 apiErr "aabbccddeeff" "aa:bb:cc:dd:ee:ff" (by decide) (by decide)

theorem format_mac_error_val (m : String) (e : PyExc) (h : format_mac m = .error e) :
    e = .assertionError := by
  by_cases h1 : (stripMacChars m).length = 12
  · by_cases h2 : (stripMacChars m).all Char.isAlphanum = true
    · simp only [format_mac, h1, h2, if_true] at h
      exact absurd h (by simp)
    · simp only [format_mac, h1, if_true] at h
      rw [if_neg (by simpa using h2)] at h
      cases h
      rfl
  · simp only [format_mac] at h
    rw [if_neg h1] at h
    cases h
    rfl

theorem parseLine_error_val (l : String) (e : PyExc) (h : parseLine l = .error e) :
    e = .assertionError := by
  unfold parseLine at h
  split at h
  · rename_i m v sw p vl ip heq
    cases hfm : format_mac m with
    | error e2 =>
      rw [hfm] at h
      cases h
      exact format_mac_error_val _ _ hfm
    | ok fm => rw [hfm] at h; cases h
  · cases h

theorem parseCsvLines_ok_six_ok (ls : List String) (rs : List PortRecord)
    (h : parseCsvLines ls = .ok rs) :
    ∀ l ∈ ls, (pySplit l ',').length = 6 →
      ∃ fm, format_mac ((pySplit l ',').getD 0 "") = .ok fm := by
  induction ls generalizing rs with
  | nil => intro l hl; cases hl
  | cons l' ls ih =>
    intro l hl h6
    simp only [parseCsvLines] at h
    cases hp : parseLine l' with
    | error e =>
      rw [hp] at h
      exact absurd h (by simp [Bind.bind, Except.bind])
    | ok r =>
      rw [hp] at h
      cases hrest : parseCsvLines ls with
      | error e =>
        rw [hrest] at h
        exact absurd h (by simp [Bind.bind, Except.bind])
      | ok rest =>
        rcases List.mem_cons.mp hl with rfl | hl2
        · obtain ⟨m, v, sw, p, vl, ip, hsp⟩ := list_eq_six _ h6
          unfold parseLine at hp
          rw [hsp] at hp
          rw [hsp]
          show ∃ fm, format_mac m = Except.ok fm
          cases hfm : format_mac m with
          | error e2 => simp [hfm] at hp
          | ok fm => exact ⟨fm, rfl⟩
        · exact ih rest hrest l hl2 h6

theorem parseCsvLines_error_val (ls : List String) (e : PyExc)
    (h : parseCsvLines ls = .error e) : e = .assertionError := by
  induction ls with
  | nil => cases h
  | cons l ls ih =>
    simp only [parseCsvLines] at h
    cases hp : parseLine l with
    | error e2 =>
      rw [hp] at h
      simp only [Bind.bind, Except.bind, Except.error.injEq] at h
      subst h
      exact parseLine_error_val l e2 hp
    | ok r =>
      rw [hp] at h
      cases hrest : parseCsvLines ls with
      | error e2 =>
        rw [hrest] at h
        simp only [Bind.bind, Except.bind, Except.error.injEq] at h
        subst h
        exact ih hrest
      | ok rest =>
        rw [hrest] at h
        exact absurd h (by simp [Bind.bind, Except.bind, Pure.pure, Except.pure])

/-- C9: if some response line has exactly 6 comma-separated fields but its
first (mac) field does not strip to exactly 12 alphanumeric characters,
non-raw resolution raises the re-normalization `AssertionError` instead of
silently dropping the line, and no records — including those parsed from
earlier valid lines — are returned. -/
theorem resolve_bad_mac_field_raises (cfg : Config) (api : String → String) (mac fm : String)
    (h : format_mac mac = .ok fm)
    (hbad : ∃ l ∈ pySplit (api (spmUrl cfg fm)) '\n', (pySplit l ',').length = 6 ∧
      ¬((strippedMac ((pySplit l ',').getD 0 "")).length = 12 ∧
        ∀ c ∈ strippedMac ((pySplit l ',').getD 0 ""), c.isAlphanum = true)) :
    (mac2switchport cfg api mac false).2 = .error .assertionError := by
  obtain ⟨l, hl, h6, hinv⟩ := hbad
  have hfmt : format_mac ((pySplit l ',').getD 0 "") = .error .assertionError :=
    (format_mac_error_iff_aux _).mpr hinv
  simp only [mac2switchport, h, Bool.false_eq_true, if_false]
  cases hp : parseCsvLines (pySplit (api (spmUrl cfg fm)) '\n') with
  | error e => rw [parseCsvLines_error_val _ _ hp]
  | ok rs =>
    obtain ⟨fm2, hfm2⟩ := parseCsvLines_ok_six_ok _ _ hp l hl h6
    rw [hfmt] at hfm2
    cases hfm2

/-- Witness for C9: a response with a valid first row and a malformed
second row makes the whole non-raw resolution raise. -/
theorem resolve_bad_mac_field_raises_witness :
    (mac2switchport cfg0 apiBadRow "aabbccddeeff" false).2 = .error .assertionError :=
  resolve_bad_mac_field_raises cfg0 apiBadRow "aabbccddeeff" "aa:bb:cc:dd:ee:ff" (by decide)
    ⟨"badmac,v,s,p,vl,ip", by decide, by decide, by decide⟩

/-! ## Facts about stream mode -/

theorem runStream_json_exc (cfg : Config) (api : String → String)
    (loads : String → Except PyExc PyVal) (printExc : Nat → Option PyExc)
    (stdin : String) (n : Nat) (out : List OutItem) (e : PyExc)
    (hj : runJsonLines cfg api loads printExc (pySplit stdin '\n') 0 [] = (n, out, some e))
    (hne : e ≠ PyExc.jsonDecodeError) :
    runStream cfg api loads printExc stdin = (out, some e) := by
  simp only [runStream]
  rw [hj]
  simp [hne]

theorem runStream_fallback_broken (cfg : Config) (api : String → String)
    (loads : String → Except PyExc PyVal) (printExc : Nat → Option PyExc)
    (stdin : String) (n k : Nat) (out out2 : List OutItem)
    (hj : runJsonLines cfg api loads printExc (pySplit stdin '\n') 0 [] =
      (n, out, some PyExc.jsonDecodeError))
    (hf : runFallbackLines cfg api printExc (pySplit stdin '\n') n out =
      (k, out2, some PyExc.brokenPipe)) :
    runStream cfg api loads printExc stdin = (out2, none) := by
  simp only [runStream]
  rw [hj]
  simp [hf]

theorem runStream_fallback_exc (cfg : Config) (api : String → String)
    (loads : String → Except PyExc PyVal) (printExc : Nat → Option PyExc)
    (stdin : String) (n k : Nat) (out out2 : List OutItem) (e : PyExc)
    (hj : runJsonLines cfg api loads printExc (pySplit stdin '\n') 0 [] =
      (n, out, some PyExc.jsonDecodeError))
    (hne : e ≠ PyExc.brokenPipe)
    (hf : runFallbackLines cfg api printExc (pySplit stdin '\n') n out = (k, out2, some e)) :
    runStream cfg api loads printExc stdin = (out2, some e) := by
  simp only [runStream]
  rw [hj]
  simp [hf, hne]

/-- C2, counterexample: with a line parsing as a JSON object batch (the
JSON object input path active) and the downstream consumer having closed
standard output, the `BrokenPipeError` raised by `print` propagates out of
stream mode — the result carries the exception instead of the clean
termination the claim asserts for every input path.  The
`except BrokenPipeError: pass` handler only wraps the bare-line fallback
loop (lines 166-167), not the JSON paths. -/
theorem stream_broken_pipe_propagates :
    runStream cfg0 apiOne loadsBatch printBroken "x" = ([], some PyExc.brokenPipe) := by
  decide

/-- C2 (amended): a broken output pipe terminates the line loop cleanly,
without raising further errors, only in the bare-line fallback path; in
the JSON object and JSON array paths a broken pipe — like every exception
other than `JSONDecodeError` escaping the JSON loop — propagates and
terminates the process, as does every exception other than
`BrokenPipeError` escaping the fallback loop. -/
theorem stream_exception_contract (cfg : Config) (api : String → String)
    (loads : String → Except PyExc PyVal) (printExc : Nat → Option PyExc)
    (stdin : String) (n : Nat) (out : List OutItem) :
    (runJsonLines cfg api loads printExc (pySplit stdin '\n') 0 [] =
        (n, out, some PyExc.jsonDecodeError) →
      (∀ k out2, runFallbackLines cfg api printExc (pySplit stdin '\n') n out =
          (k, out2, some PyExc.brokenPipe) →
        runStream cfg api loads printExc stdin = (out2, none)) ∧
      (∀ k out2 e, e ≠ PyExc.brokenPipe →
        runFallbackLines cfg api printExc (pySplit stdin '\n') n out = (k, out2, some e) →
        runStream cfg api loads printExc stdin = (out2, some e))) ∧
    (∀ e, e ≠ PyExc.jsonDecodeError →
      runJsonLines cfg api loads printExc (pySplit stdin '\n') 0 [] = (n, out, some e) →
      runStream cfg api loads printExc stdin = (out, some e)) := by
  constructor
  · intro hj
    constructor
    · intro k out2 hf
      exact runStream_fallback_broken cfg api loads printExc stdin n k out out2 hj hf
    · intro k out2 e hne hf
      exact runStream_fallback_exc cfg api loads printExc stdin n k out out2 e hj hne hf
  · intro e hne hj
    exact runStream_json_exc cfg api loads printExc stdin n out e hj hne

/-- Witness for the amended C2: non-JSON input, every resolution
succeeding, the consumer's pipe closed — the run outputs nothing and
terminates cleanly. -/
theorem stream_exception_contract_witness :
    runStream cfg0 apiOne loadsFail printBroken "aabbccddeeff" = ([], none) :=
  ((stream_exception_contract cfg0 apiOne loadsFail printBroken "aabbccddeeff" 0 []).1
    (by decide)).1 1 [] (by decide)

theorem format_mac_singleton (c : Char) :
    format_mac (String.mk [c]) = .error .assertionError := by
  have hb : (stripMacChars (String.mk [c])).length ≤ 1 := by
    show (stripChars [c]).length ≤ 1
    unfold stripChars
    refine le_trans (List.length_filter_le _ _) ?_
    rw [List.length_map]
    exact List.length_filter_le _ _
  simp only [format_mac]
  rw [if_neg (by omega)]

/-- C10: in stream mode, a line parsing as a JSON object whose `mac` field
holds a single MAC string rather than a sequence makes the dispatcher
iterate over the string's characters; resolution is attempted per
character and the first one-character "MAC" fails normalization, so the
whole run raises `AssertionError` with nothing printed — whatever the
server would have answered (`api` is arbitrary), the intended address is
never resolved as a whole. -/
theorem stream_dict_string_mac_fails (cfg : Config) (api : String → String)
    (printExc : Nat → Option PyExc) (s : String) (hs : s ≠ "") :
    runStream cfg api (fun _ => .ok (.dict [("mac", .str s)])) printExc "j" =
      ([], some PyExc.assertionError) := by
  refine runStream_json_exc cfg api _ printExc "j" 0 [] PyExc.assertionError ?_ (by decide)
  obtain ⟨c, cs, hcd⟩ : ∃ c cs, s.data = c :: cs := by
    cases hd : s.data with
    | nil =>
      exfalso
      apply hs
      cases s
      simp at hd
      rw [hd]
    | cons c cs => exact ⟨c, cs, rfl⟩
  have hls : pySplit "j" '\n' = ["j"] := by decide
  rw [hls]
  simp [runJsonLines, (by decide : ¬("j".length = 0)), pyLookup, pyIter, hcd,
    resolveAll, mac2switchportVal, mac2switchport, format_mac_singleton,
    Bind.bind, Except.bind, List.find?]

/-- Witness for C10 at a concrete MAC string. -/
theorem stream_dict_string_mac_fails_witness :
    runStream cfg0 apiOne (fun _ => .ok (.dict [("mac", .str "aa:bb:cc:dd:ee:ff")])) printOk "j" =
      ([], some PyExc.assertionError) :=
  stream_dict_string_mac_fails cfg0 apiOne printOk "aa:bb:cc:dd:ee:ff" (by decide)

end Mac2Switchport
